import Mathlib

/-!
# coolchat: the websocket relay server of `serv/serv.go`

A shallow embedding of `Server` (the session registry `users`, the `once`
guard), of `addUser`, `delUser`, `Shutdown`, `readloop`, `handle`,
`writeText` and of the two closures of `Start`, followed by the theorems
about them.

Conventions of the embedding.

* A Go `string` and a Go `[]byte` are sequences of bytes: `List Nat`, each
  element a byte value.  No operation of the program leaves the range
  `0..255` (see `Cipher_bytes`), and every theorem is proved for all lists.
* A non-nil `net.Conn` is an opaque handle, a `Nat`; a nil one is `none`.
* `map[string]net.Conn` is an association list with unique keys
  (`AList`); `range` visits `entries` from left to right.  Go fixes no
  iteration order, and the theorems hold for every `AList`, so for every
  order.
* What the program does to the outside (closing a connection, writing a
  frame, a log line) is recorded as a list of `Event`s, oldest first.
* The mutex is not modelled: every method body runs atomically.  A
  goroutine started with `go` is returned as data (the call it will make).
* `readloop` runs on the outcomes of its successive `ws.ReadFrame` calls:
  a returned error, a returned frame, or a panic, which nothing recovers.
-/

namespace Coolchat

/-- A Go `string` / `[]byte`: its bytes. -/
abbrev GoString := List Nat

/-- A non-nil `net.Conn`, an opaque handle. -/
abbrev Conn := Nat

/-- A non-nil Go `error`, by its message. -/
abbrev GoError := String

/-- `ws.OpCode` is a byte. -/
abbrev OpCode := Nat

/-- Modelled from the spec: the opcode constants belong to the library
gobwas/ws and are not under `src/`; a frame carries an opcode (text, binary,
close, ping, pong, continuation).  The values are those of the websocket
wire protocol; the theorems use only that they differ.  This one is
`ws.OpContinuation`. -/
def OpContinuation : OpCode := 0x0

/-- Modelled from the spec: `ws.OpText`, see `OpContinuation`. -/
def OpText : OpCode := 0x1

/-- Modelled from the spec: `ws.OpBinary`, see `OpContinuation`. -/
def OpBinary : OpCode := 0x2

/-- Modelled from the spec: `ws.OpClose`, see `OpContinuation`. -/
def OpClose : OpCode := 0x8

/-- Modelled from the spec: `ws.OpPing`, see `OpContinuation`. -/
def OpPing : OpCode := 0x9

/-- Modelled from the spec: `ws.OpPong`, see `OpContinuation`. -/
def OpPong : OpCode := 0xa

/-- The `[4]byte` mask key of a frame header. -/
structure Mask where
  b0 : Nat
  b1 : Nat
  b2 : Nat
  b3 : Nat
  deriving DecidableEq, Repr

/-- `mask[i]` for an index `i` below 4. -/
def Mask.get (m : Mask) (i : Nat) : Nat :=
  match i with
  | 0 => m.b0
  | 1 => m.b1
  | 2 => m.b2
  | _ => m.b3

/-- Modelled from the spec: `ws.Header` belongs to the library gobwas/ws; a
frame carries an opcode and masking metadata. -/
structure Header where
  Fin : Bool
  Rsv : Nat
  OpCode : OpCode
  Masked : Bool
  Mask : Mask
  Length : Nat
  deriving DecidableEq, Repr

/-- Modelled from the spec: `ws.Frame` belongs to the library gobwas/ws; a
frame is a header and a payload. -/
structure Frame where
  Header : Header
  Payload : List Nat
  deriving DecidableEq, Repr

/-- Modelled from the spec: `ws.NewTextFrame` belongs to the library
gobwas/ws and is not under `src/`; outbound messages are unmasked text
frames whose payload is the given bytes. -/
def NewTextFrame (p : List Nat) : Frame :=
  { Header := { Fin := true, Rsv := 0, OpCode := OpText, Masked := false,
                Mask := ⟨0, 0, 0, 0⟩, Length := p.length },
    Payload := p }

/-- Modelled from the spec: `ws.Cipher` belongs to the library gobwas/ws and
is not under `src/`.  It is the masking of the websocket wire protocol,
`payload[i] ^= mask[(offset+i) % 4]` for every index `i`. -/
def Cipher : List Nat → Mask → Nat → List Nat
  | [], _, _ => []
  | b :: bs, mask, offset => (b ^^^ mask.get (offset % 4)) :: Cipher bs mask (offset + 1)

/-- The lines the program logs. -/
inductive LogLine where
  | userIn (user : GoString)
  | connClosed (user : GoString)
  | err (e : GoError)
  | receive (message user : GoString)
  | sendTo (u broadcast : GoString)
  | writeFailed (user : GoString) (e : GoError)
  deriving DecidableEq, Repr

/-- What the program does to the outside. -/
inductive Event where
  | close (conn : Conn)
  | write (conn : Conn) (f : Frame)
  | log (l : LogLine)
  deriving DecidableEq, Repr

/-- The outcome of `ws.WriteFrame(conn, f)`: `none` is success.  It may
depend on everything the running call has done so far. -/
abbrev WriteFrame := List Event → Conn → Frame → Option GoError

/-- The struct `Server`; `once` is true when `sync.Once` has fired. -/
structure Server where
  once : Bool
  id : GoString
  address : GoString
  users : AList (fun _ : GoString => Conn)

/-- `NewServer`. -/
def NewServer (id address : GoString) : Server :=
  { once := false, id := id, address := address, users := ∅ }

/-- `Server.addUser`: `old, ok := s.users[user]; s.users[user] = conn`. -/
def addUser (s : Server) (user : GoString) (conn : Conn) : Server × Option Conn × Bool :=
  let old := s.users.lookup user
  ({ s with users := s.users.insert user conn }, old, old.isSome)

/-- `Server.delUser`: `delete(s.users, user)`. -/
def delUser (s : Server) (user : GoString) : Server :=
  { s with users := s.users.erase user }

/-- The body of the `range s.users` loop of `Shutdown`. -/
def ShutdownLoop : List (Σ _ : GoString, Conn) → List Event
  | [] => []
  | e :: rest => Event.close e.2 :: ShutdownLoop rest

/-- `Server.Shutdown`: the closure runs only when `once` has not fired. -/
def Shutdown (s : Server) : Server × List Event :=
  if s.once then (s, [])
  else ({ s with once := true }, ShutdownLoop s.users.entries)

/-- `Server.writeText`: the frame written and the outcome of the write. -/
def writeText (wf : WriteFrame) (hist : List Event) (conn : Conn) (message : GoString) :
    Option GoError × List Event :=
  let f := NewTextFrame message
  (wf hist conn f, hist ++ [Event.write conn f])

/-- The body of the `range s.users` loop of `handle`; `hist` is what the
call has done so far. -/
def handleLoop (wf : WriteFrame) (user broadcast : GoString) :
    List (Σ _ : GoString, Conn) → List Event → List Event
  | [], hist => hist
  | e :: rest, hist =>
    if e.1 = user then handleLoop wf user broadcast rest hist
    else
      let hist1 := hist ++ [Event.log (LogLine.sendTo e.1 broadcast)]
      let r := writeText wf hist1 e.2 broadcast
      match r.1 with
      | some err =>
        handleLoop wf user broadcast rest (r.2 ++ [Event.log (LogLine.writeFailed user err)])
      | none => handleLoop wf user broadcast rest r.2

/-- The literal `" -- FROM"`. -/
def fromTag : GoString := " -- FROM".toList.map Char.toNat

/-- `Server.handle`; it has no result, the server is returned as it is left. -/
def handle (wf : WriteFrame) (s : Server) (user message : GoString) : Server × List Event :=
  let hist0 := [Event.log (LogLine.receive message user)]
  let broadcast := message ++ fromTag ++ user
  (s, handleLoop wf user broadcast s.users.entries hist0)

/-- The outcome of one `ws.ReadFrame(conn)`: it returns an error, it returns
a frame, or it panics (the library allocates the payload length the header
announces, and a length beyond what can be allocated is a runtime panic). -/
inductive ReadOutcome where
  | err (e : GoError)
  | frame (f : Frame)
  | panic (msg : GoError)
  deriving DecidableEq, Repr

/-- What a run of `readloop` has done: `ret` is `some r` once it has
returned `r` (`r = none` is the nil error) and `none` when it has not
returned; `panicked` is true when a panic of `ws.ReadFrame` has left the
loop (`readloop` has no `recover`, nor has the goroutine of `Start` that
calls it, so the panic ends the process); with `ret = none` and `panicked`
false the loop is still waiting in `ws.ReadFrame` (every outcome supplied
was consumed and none ended the loop); `dispatched` lists the
`go s.handle(user, text)` calls in the order they were started; `rest` is
the outcomes not read. -/
structure LoopResult where
  ret : Option (Option GoError)
  dispatched : List (GoString × GoString)
  rest : List ReadOutcome
  panicked : Bool
  deriving DecidableEq, Repr

/-- `Server.readloop`, run on the outcomes of its successive
`ws.ReadFrame(conn)` calls. -/
def readloop (user : GoString) : List ReadOutcome → LoopResult
  | [] => { ret := none, dispatched := [], rest := [], panicked := false }
  | ReadOutcome.panic _ :: rest =>
    { ret := none, dispatched := [], rest := rest, panicked := true }
  | ReadOutcome.err _ :: rest =>
    { ret := some none, dispatched := [], rest := rest, panicked := false }
  | ReadOutcome.frame frame :: rest =>
    if frame.Header.OpCode = OpClose then
      { ret := some (some "remote side close the conn"), dispatched := [], rest := rest,
        panicked := false }
    else
      let payload :=
        if frame.Header.Masked then Cipher frame.Payload frame.Header.Mask 0
        else frame.Payload
      let r := readloop user rest
      if frame.Header.OpCode = OpText then
        { r with dispatched := (user, payload) :: r.dispatched }
      else r

/-- The result of `ws.UpgradeHTTP(r, w)`: on success a connection; on
failure an error and a connection that may be nil. -/
inductive Upgrade where
  | ok (conn : Conn)
  | failed (conn : Option Conn) (e : GoError)
  deriving DecidableEq, Repr

/-- `r.URL.Query().Get("user")`: the empty string when the parameter is
absent. -/
def queryGet (param : Option GoString) : GoString :=
  match param with
  | some v => v
  | none => []

/-- What one run of the connection handler of `Start` has done: the server
as it is left, the events, the goroutine started (`readloop` for that user
and connection), and whether the handler panicked (a `Close` on a nil
connection). -/
structure HandlerResult where
  server : Server
  events : List Event
  spawned : Option (GoString × Conn)
  panicked : Bool

/-- The closure `Start` passes to `mux.HandleFunc`. -/
def StartHandler (s : Server) (up : Upgrade) (param : Option GoString) : HandlerResult :=
  match up with
  | Upgrade.failed (some conn) _ =>
    { server := s, events := [Event.close conn], spawned := none, panicked := false }
  | Upgrade.failed none _ =>
    { server := s, events := [], spawned := none, panicked := true }
  | Upgrade.ok conn =>
    let user := queryGet param
    if user = [] then
      { server := s, events := [Event.close conn], spawned := none, panicked := false }
    else
      let r := addUser s user conn
      let evOld :=
        if r.2.2 then
          match r.2.1 with
          | some old => [Event.close old]
          | none => []
        else []
      { server := r.1, events := evOld ++ [Event.log (LogLine.userIn user)],
        spawned := some (user, conn), panicked := false }

/-- The goroutine `Start` launches for a connection, from the moment its
`readloop` has returned `err`: log the error if any, close the connection,
delete the user. -/
def StartGoroutineExit (s : Server) (user : GoString) (conn : Conn) (err : Option GoError) :
    Server × List Event :=
  let evErr :=
    match err with
    | some e => [Event.log (LogLine.err e)]
    | none => []
  (delUser s user, evErr ++ [Event.close conn, Event.log (LogLine.connClosed user)])

/-- `Shutdown` called `n` times in a row: the server as it is left and the
events of each call, in call order. -/
def ShutdownTimes : Nat → Server → Server × List (List Event)
  | 0, s => (s, [])
  | n + 1, s =>
    let r := Shutdown s
    let q := ShutdownTimes n r.1
    (q.1, r.2 :: q.2)

/-- The frames written, in order, with the connection each was written to. -/
def writesOf : List Event → List (Conn × Frame)
  | [] => []
  | Event.write conn f :: rest => (conn, f) :: writesOf rest
  | _ :: rest => writesOf rest

/-- The connections closed, in order. -/
def closesOf : List Event → List Conn
  | [] => []
  | Event.close conn :: rest => conn :: closesOf rest
  | _ :: rest => closesOf rest

/-- The masking in the words of the specification: byte `i` of the payload xored with
byte `i mod 4` of the key. -/
def xorMask (p : List Nat) (k : Mask) : List Nat :=
  List.zipWith (fun b i => b ^^^ k.get (i % 4)) p (List.range p.length)

/-- The text of a frame as the client meant it: the payload, unmasked when
the header says it is masked. -/
def Frame.text (f : Frame) : GoString :=
  if f.Header.Masked then xorMask f.Payload f.Header.Mask else f.Payload

/-- Whether an outcome is a failed read or a close frame. -/
def failedOrClose : ReadOutcome → Bool
  | ReadOutcome.err _ => true
  | ReadOutcome.frame f => decide (f.Header.OpCode = OpClose)
  | ReadOutcome.panic _ => false

/-- Whether an outcome is a panic of `ws.ReadFrame`. -/
def isPanic : ReadOutcome → Bool
  | ReadOutcome.panic _ => true
  | _ => false

/-- Whether an outcome ends `readloop`: a failed read, a close frame, or a
panic of `ws.ReadFrame`. -/
def stops : ReadOutcome → Bool
  | ReadOutcome.err _ => true
  | ReadOutcome.frame f => decide (f.Header.OpCode = OpClose)
  | ReadOutcome.panic _ => true

/-- Three read outcomes: `ws.ReadFrame` panics on a header that announces a
payload of 2^62 bytes; a text frame and the end of the stream would
follow. -/
def readsWithPanic : List ReadOutcome :=
  [ReadOutcome.panic "runtime error: makeslice: len out of range",
    ReadOutcome.frame
      { Header := { Fin := true, Rsv := 0, OpCode := OpText, Masked := false,
                    Mask := ⟨0, 0, 0, 0⟩, Length := 2 },
        Payload := [104, 105] },
    ReadOutcome.err "EOF"]

/-- A registry whose connections are pairwise distinct: no connection is
registered under two user ids. -/
def distinctConns (s : Server) : Prop :=
  (s.users.entries.map fun e => e.2).Nodup

instance (s : Server) : Decidable (distinctConns s) := by
  unfold distinctConns; infer_instance

/-- The bytes of a key are bytes. -/
def Mask.isBytes (k : Mask) : Prop :=
  k.b0 < 256 ∧ k.b1 < 256 ∧ k.b2 < 256 ∧ k.b3 < 256

/-- The frame `handle` sends for `message` from `user`. -/
def broadcastFrame (user message : GoString) : Frame :=
  NewTextFrame (message ++ fromTag ++ user)

/-- The entries of the registry `handle` writes to: those not keyed by the
sender, in iteration order. -/
def recipients (s : Server) (user : GoString) : List (Σ _ : GoString, Conn) :=
  s.users.entries.filter fun e => decide (e.1 ≠ user)

/-- Whether an event is the log line of a failed write. -/
def isWriteFailed : Event → Bool
  | Event.log (LogLine.writeFailed _ _) => true
  | _ => false

/-- The write outcome under which every write succeeds. -/
def allSucceed : WriteFrame := fun _ _ _ => none

/-- A registry with three sessions: `"A"` on connection 1, `"B"` on
connection 2, `"C"` on connection 3. -/
def serverABC : Server :=
  (addUser (addUser (addUser (NewServer [49] [58, 56, 48]) [67] 3).1 [66] 2).1 [65] 1).1

/-- A write outcome under which every write to connection 2 fails and every
other write succeeds. -/
def failsOn2 : WriteFrame := fun _ conn _ => if conn = 2 then some "closed" else none

/-- The user id `"alice"`. -/
def alice : GoString := [97, 108, 105, 99, 101]

/-- A first connection, 1, has registered as `"alice"` on a new server. -/
def reloginFirst : HandlerResult :=
  StartHandler (NewServer [49] [58, 56, 48]) (Upgrade.ok 1) (some alice)

/-- A second connection, 2, then registers as `"alice"`. -/
def reloginSecond : HandlerResult :=
  StartHandler reloginFirst.server (Upgrade.ok 2) (some alice)

/-- The goroutine of connection 1 then leaves its `readloop`, whose read has
failed, and tears down. -/
def reloginTeardown : Server × List Event :=
  StartGoroutineExit reloginSecond.server alice 1 none

/-- A text frame masked with the key 1, 2, 3, 4, carrying `"hello"`. -/
def frameHello : Frame :=
  { Header := { Fin := true, Rsv := 0, OpCode := OpText, Masked := true,
                Mask := ⟨1, 2, 3, 4⟩, Length := 5 },
    Payload := xorMask [104, 101, 108, 108, 111] ⟨1, 2, 3, 4⟩ }

/-- An unmasked frame of the given opcode carrying the bytes 1, 2. -/
def frameOf (op : OpCode) : Frame :=
  { Header := { Fin := true, Rsv := 0, OpCode := op, Masked := false,
                Mask := ⟨0, 0, 0, 0⟩, Length := 2 },
    Payload := [1, 2] }

/-! ## The masking -/

theorem Cipher_eq_zipWith (p : List Nat) (k : Mask) (o : Nat) :
    Cipher p k o = List.zipWith (fun b i => b ^^^ k.get (i % 4)) p (List.range' o p.length) := by
  induction p generalizing o with
  | nil => simp [Cipher]
  | cons b bs ih => simp [Cipher, List.range'_succ, ih]

theorem Cipher_eq_xorMask (p : List Nat) (k : Mask) : Cipher p k 0 = xorMask p k := by
  rw [Cipher_eq_zipWith, xorMask, List.range_eq_range']

theorem Cipher_length (p : List Nat) (k : Mask) (o : Nat) : (Cipher p k o).length = p.length := by
  induction p generalizing o with
  | nil => simp [Cipher]
  | cons b bs ih => simp [Cipher, ih]

theorem Cipher_Cipher (p : List Nat) (k : Mask) (o : Nat) : Cipher (Cipher p k o) k o = p := by
  induction p generalizing o with
  | nil => simp [Cipher]
  | cons b bs ih => simp [Cipher, ih, Nat.xor_cancel_right]

theorem Mask.get_lt (k : Mask) (hk : k.isBytes) (i : Nat) : k.get i < 256 := by
  obtain ⟨h0, h1, h2, h3⟩ := hk
  unfold Mask.get
  split <;> assumption

/-- Masking keeps bytes in the byte range. -/
theorem Cipher_bytes (p : List Nat) (k : Mask) (o : Nat) (hk : k.isBytes)
    (hp : ∀ b ∈ p, b < 256) : ∀ b ∈ Cipher p k o, b < 256 := by
  induction p generalizing o with
  | nil => simp [Cipher]
  | cons b bs ih =>
    intro x hx
    simp only [Cipher, List.mem_cons] at hx
    rcases hx with rfl | hx
    · have hb : b < 2 ^ 8 := hp b (List.mem_cons_self _ _)
      have hm : k.get (o % 4) < 2 ^ 8 := Mask.get_lt k hk _
      exact Nat.xor_lt_two_pow hb hm
    · exact ih (o + 1) (fun y hy => hp y (List.mem_cons_of_mem _ hy)) x hx

theorem xorMask_xorMask (p : List Nat) (k : Mask) : xorMask (xorMask p k) k = p := by
  rw [← Cipher_eq_xorMask, ← Cipher_eq_xorMask, Cipher_Cipher]

/-! ## The broadcast -/

theorem writesOf_append (a b : List Event) : writesOf (a ++ b) = writesOf a ++ writesOf b := by
  induction a with
  | nil => rfl
  | cons e rest ih => cases e <;> simp [writesOf, ih]

theorem handleLoop_writes (wf : WriteFrame) (user broadcast : GoString)
    (es : List (Σ _ : GoString, Conn)) (hist : List Event) :
    writesOf (handleLoop wf user broadcast es hist) =
      writesOf hist ++
        (es.filter fun e => decide (e.1 ≠ user)).map fun e => (e.2, NewTextFrame broadcast) := by
  induction es generalizing hist with
  | nil => simp [handleLoop]
  | cons e rest ih =>
    unfold handleLoop
    by_cases h : e.1 = user
    · simp [h, ih]
    · simp only [h, if_false, writeText]
      split <;> simp [ih, writesOf_append, writesOf, h]

theorem handle_writes (wf : WriteFrame) (s : Server) (user message : GoString) :
    writesOf (handle wf s user message).2 =
      (recipients s user).map fun e => (e.2, broadcastFrame user message) := by
  simp [handle, handleLoop_writes, writesOf, recipients, broadcastFrame]

theorem mem_recipients (s : Server) (user u : GoString) (c : Conn) :
    (⟨u, c⟩ : Σ _ : GoString, Conn) ∈ recipients s user ↔
      u ≠ user ∧ s.users.lookup u = some c := by
  simp only [recipients, List.mem_filter, decide_eq_true_eq]
  rw [← AList.mem_lookup_iff, Option.mem_def]
  exact and_comm

theorem recipients_keys_nodup (s : Server) (user : GoString) :
    ((recipients s user).map fun e => e.1).Nodup := by
  have h : (s.users.entries.map fun e => e.1).Nodup := s.users.keys_nodup
  exact h.sublist ((List.filter_sublist _).map _)

theorem recipients_conns_nodup (s : Server) (user : GoString) (h : distinctConns s) :
    ((recipients s user).map fun e => e.2).Nodup :=
  List.Nodup.sublist ((List.filter_sublist _).map _) h

theorem filter_eq_singleton {α β : Type} [DecidableEq β] (f : α → β) (l : List α)
    (hn : (l.map f).Nodup) (x : α) (hx : x ∈ l) :
    l.filter (fun y => decide (f y = f x)) = [x] := by
  induction l with
  | nil => cases hx
  | cons a rest ih =>
    rw [List.map_cons, List.nodup_cons] at hn
    rcases List.mem_cons.mp hx with rfl | hx
    · have hrest : rest.filter (fun y => decide (f y = f x)) = [] := by
        rw [List.filter_eq_nil_iff]
        intro y hy hxy
        exact hn.1 (by rw [← of_decide_eq_true hxy]; exact List.mem_map_of_mem f hy)
      simp [List.filter_cons, hrest]
    · have hne : f a ≠ f x := fun h => hn.1 (by rw [h]; exact List.mem_map_of_mem f hx)
      simp [List.filter_cons, hne, ih hn.2 hx]

/-- C1. Broadcast fan-out: `handle` from sender `A` with text `T` writes, whatever
the outcome of the writes, one text frame per registry entry not keyed by
`A` and nothing else, each carrying exactly `T ++ " -- FROM" ++ A`; these
entries hold every registered id other than `A` once and never `A`; so when
no connection is registered under two ids, the connection of every id other
than `A` gets exactly one write and the connection of `A` gets none. -/
theorem handle_fanout (wf : WriteFrame) (s : Server) (A T : GoString) :
    writesOf (handle wf s A T).2 =
        (recipients s A).map (fun e => (e.2, NewTextFrame (T ++ fromTag ++ A))) ∧
      (∀ u c, (⟨u, c⟩ : Σ _ : GoString, Conn) ∈ recipients s A ↔
        u ≠ A ∧ s.users.lookup u = some c) ∧
      ((recipients s A).map fun e => e.1).Nodup ∧
      (distinctConns s → ∀ u c, u ≠ A → s.users.lookup u = some c →
        (writesOf (handle wf s A T).2).filter (fun w => decide (w.1 = c)) =
          [(c, NewTextFrame (T ++ fromTag ++ A))]) ∧
      (distinctConns s → ∀ c, s.users.lookup A = some c →
        ∀ w ∈ writesOf (handle wf s A T).2, w.1 ≠ c) := by
  refine ⟨handle_writes wf s A T, fun u c => mem_recipients s A u c,
    recipients_keys_nodup s A, ?_, ?_⟩
  · intro hd u c hu hl
    have hmem : (⟨u, c⟩ : Σ _ : GoString, Conn) ∈ recipients s A :=
      (mem_recipients s A u c).2 ⟨hu, hl⟩
    have hf := filter_eq_singleton (fun e : Σ _ : GoString, Conn => e.2) (recipients s A)
      (recipients_conns_nodup s A hd) ⟨u, c⟩ hmem
    rw [handle_writes, List.filter_map]
    have hfun : ((fun w : Conn × Frame => decide (w.1 = c)) ∘
        fun e : Σ _ : GoString, Conn => (e.2, broadcastFrame A T)) =
        fun y : Σ _ : GoString, Conn => decide (y.2 = c) := rfl
    rw [hfun]
    simp only at hf
    rw [hf]
    rfl
  · intro hd c hl w hw hwc
    rw [handle_writes, List.mem_map] at hw
    obtain ⟨e, he, rfl⟩ := hw
    obtain ⟨u, c1⟩ := e
    have hne := ((mem_recipients s A u c1).1 he).1
    have h1 : (⟨u, c1⟩ : Σ _ : GoString, Conn) ∈ s.users.entries :=
      AList.mem_lookup_iff.1 ((mem_recipients s A u c1).1 he).2
    have h2 : (⟨A, c⟩ : Σ _ : GoString, Conn) ∈ s.users.entries := AList.mem_lookup_iff.1 hl
    have hinj := List.inj_on_of_nodup_map hd h1 h2 hwc
    exact hne (congrArg Sigma.fst hinj)

theorem handle_fanout_witness :
    distinctConns serverABC ∧
      (writesOf (handle allSucceed serverABC [65] [104, 105]).2).filter
          (fun w => decide (w.1 = 2)) =
        [(2, NewTextFrame ([104, 105] ++ fromTag ++ [65]))] ∧
      (writesOf (handle allSucceed serverABC [65] [104, 105]).2).filter
          (fun w => decide (w.1 = 3)) =
        [(3, NewTextFrame ([104, 105] ++ fromTag ++ [65]))] ∧
      ∀ w ∈ writesOf (handle allSucceed serverABC [65] [104, 105]).2, w.1 ≠ 1 :=
  ⟨by decide,
    (handle_fanout allSucceed serverABC [65] [104, 105]).2.2.2.1 (by decide) [66] 2
      (by decide) (by decide),
    (handle_fanout allSucceed serverABC [65] [104, 105]).2.2.2.1 (by decide) [67] 3
      (by decide) (by decide),
    (handle_fanout allSucceed serverABC [65] [104, 105]).2.2.2.2 (by decide) 1 (by decide)⟩

theorem filter_handleLoop (wf : WriteFrame) (user broadcast : GoString)
    (es : List (Σ _ : GoString, Conn)) (hist : List Event) :
    (handleLoop wf user broadcast es hist).filter (fun e => !isWriteFailed e) =
      handleLoop allSucceed user broadcast es (hist.filter fun e => !isWriteFailed e) := by
  induction es generalizing hist with
  | nil => simp [handleLoop]
  | cons e rest ih =>
    unfold handleLoop
    by_cases h : e.1 = user
    · simp [h, ih]
    · have h1 : ∀ u b, isWriteFailed (Event.log (LogLine.sendTo u b)) = false := fun _ _ => rfl
      have h2 : ∀ c f, isWriteFailed (Event.write c f) = false := fun _ _ => rfl
      have h3 : ∀ u x, isWriteFailed (Event.log (LogLine.writeFailed u x)) = true :=
        fun _ _ => rfl
      simp only [h, if_false, writeText]
      split <;> simp [ih, List.filter_append, List.filter_cons, h1, h2, h3, allSucceed]

theorem handleLoop_filter (wf : WriteFrame) (user broadcast : GoString)
    (es : List (Σ _ : GoString, Conn)) (hist : List Event) :
    handleLoop wf user broadcast es hist =
      handleLoop wf user broadcast (es.filter fun e => decide (e.1 ≠ user)) hist := by
  induction es generalizing hist with
  | nil => rfl
  | cons e rest ih =>
    by_cases h : e.1 = user
    · simp [handleLoop, h, ih]
    · have hf : (e :: rest).filter (fun e => decide (e.1 ≠ user)) =
          e :: rest.filter (fun e => decide (e.1 ≠ user)) := by simp [List.filter_cons, h]
      rw [hf]
      unfold handleLoop
      simp only [h, if_false]
      split <;> exact ih _

theorem handleLoop_append (wf : WriteFrame) (user broadcast : GoString)
    (l1 l2 : List (Σ _ : GoString, Conn)) (hist : List Event) :
    handleLoop wf user broadcast (l1 ++ l2) hist =
      handleLoop wf user broadcast l2 (handleLoop wf user broadcast l1 hist) := by
  induction l1 generalizing hist with
  | nil => rfl
  | cons e rest ih =>
    rw [List.cons_append, handleLoop, handleLoop]
    by_cases h : e.1 = user
    · simp only [h, if_true]; exact ih _
    · simp only [h, if_false]
      split <;> exact ih _

/-- C2. Partial failure isolation: whatever writes fail, the events of `handle` are
those of the run in which every write succeeds plus log lines of the
failures; so the same writes are attempted in the same order and the entry
of every registered id other than the sender gets its write; when the write
to an entry fails, the failure is logged and the loop goes on with the
entries after it, each of which gets its write.  `handle` has no error to
report: it returns the server only. -/
theorem handle_failure_isolation (wf : WriteFrame) (s : Server) (sender text : GoString) :
    (handle wf s sender text).2.filter (fun e => !isWriteFailed e) =
        (handle allSucceed s sender text).2 ∧
      writesOf (handle wf s sender text).2 = writesOf (handle allSucceed s sender text).2 ∧
      (∀ u c, u ≠ sender → s.users.lookup u = some c →
        (c, NewTextFrame (text ++ fromTag ++ sender)) ∈ writesOf (handle wf s sender text).2) ∧
      (∀ before e after err, recipients s sender = before ++ e :: after →
        wf (handleLoop wf sender (text ++ fromTag ++ sender) before
              [Event.log (LogLine.receive text sender)] ++
              [Event.log (LogLine.sendTo e.1 (text ++ fromTag ++ sender))]) e.2
            (NewTextFrame (text ++ fromTag ++ sender)) = some err →
        (handle wf s sender text).2 =
            handleLoop wf sender (text ++ fromTag ++ sender) after
              (handleLoop wf sender (text ++ fromTag ++ sender) before
                  [Event.log (LogLine.receive text sender)] ++
                [Event.log (LogLine.sendTo e.1 (text ++ fromTag ++ sender)),
                  Event.write e.2 (NewTextFrame (text ++ fromTag ++ sender)),
                  Event.log (LogLine.writeFailed sender err)]) ∧
          ∀ x ∈ after, (x.2, NewTextFrame (text ++ fromTag ++ sender)) ∈
            writesOf (handle wf s sender text).2) := by
  refine ⟨?_, ?_, ?_, ?_⟩
  · have h1 : ∀ m u, isWriteFailed (Event.log (LogLine.receive m u)) = false := fun _ _ => rfl
    simp [handle, filter_handleLoop, List.filter_cons, h1]
  · rw [handle_writes, handle_writes]
  · intro u c hu hl
    rw [handle_writes, List.mem_map]
    exact ⟨⟨u, c⟩, (mem_recipients s sender u c).2 ⟨hu, hl⟩, rfl⟩
  · intro before e after err hsplit hfail
    constructor
    · have hne : e.1 ≠ sender := by
        have he : e ∈ recipients s sender := by rw [hsplit]; simp
        obtain ⟨u, c⟩ := e
        exact ((mem_recipients s sender u c).1 he).1
      have hrec : s.users.entries.filter (fun e => decide (e.1 ≠ sender)) =
          before ++ e :: after := hsplit
      show handleLoop wf sender (text ++ fromTag ++ sender) s.users.entries
        [Event.log (LogLine.receive text sender)] = _
      generalize text ++ fromTag ++ sender = b at hfail ⊢
      rw [handleLoop_filter, hrec, handleLoop_append, handleLoop]
      simp only [hne, if_false, writeText, hfail, List.append_assoc, List.singleton_append,
        List.cons_append, List.nil_append]
    · intro x hx
      rw [handle_writes, List.mem_map]
      exact ⟨x, by rw [hsplit]; simp [hx], rfl⟩

theorem handle_failure_isolation_witness :
    (3, NewTextFrame ([104, 105] ++ fromTag ++ [65])) ∈
        writesOf (handle failsOn2 serverABC [65] [104, 105]).2 ∧
      ((handle failsOn2 serverABC [65] [104, 105]).2 =
          handleLoop failsOn2 [65] ([104, 105] ++ fromTag ++ [65]) [⟨[67], 3⟩]
            (handleLoop failsOn2 [65] ([104, 105] ++ fromTag ++ [65]) []
                [Event.log (LogLine.receive [104, 105] [65])] ++
              [Event.log (LogLine.sendTo [66] ([104, 105] ++ fromTag ++ [65])),
                Event.write 2 (NewTextFrame ([104, 105] ++ fromTag ++ [65])),
                Event.log (LogLine.writeFailed [65] "closed")]) ∧
        ∀ x ∈ [(⟨[67], 3⟩ : Σ _ : GoString, Conn)],
          (x.2, NewTextFrame ([104, 105] ++ fromTag ++ [65])) ∈
            writesOf (handle failsOn2 serverABC [65] [104, 105]).2) :=
  ⟨(handle_failure_isolation failsOn2 serverABC [65] [104, 105]).2.2.1 [67] 3
      (by decide) (by decide),
    (handle_failure_isolation failsOn2 serverABC [65] [104, 105]).2.2.2 [] ⟨[66], 2⟩
      [⟨[67], 3⟩] "closed" (by decide) (by decide)⟩

/-! ## The registry -/

/-- C3. Upsert: `addUser U C` returns the prior lookup of `U`, that is `(C1, true)`
when `C1` was registered for `U` and `(nil, false)` when `U` was not
registered; afterwards the registry maps `U` to `C`, the entry of every
other id is as before, and nothing else of the server has changed. -/
theorem addUser_result (s : Server) (U : GoString) (C : Conn) :
    (addUser s U C).2 = (s.users.lookup U, (s.users.lookup U).isSome) ∧
      (∀ C1, s.users.lookup U = some C1 → (addUser s U C).2 = (some C1, true)) ∧
      (s.users.lookup U = none → (addUser s U C).2 = (none, false)) ∧
      (addUser s U C).1.users.lookup U = some C ∧
      (∀ V, V ≠ U → (addUser s U C).1.users.lookup V = s.users.lookup V) ∧
      (addUser s U C).1.once = s.once ∧ (addUser s U C).1.id = s.id ∧
      (addUser s U C).1.address = s.address := by
  refine ⟨rfl, ?_, ?_, ?_, ?_, rfl, rfl, rfl⟩
  · intro C1 h
    simp [addUser, h]
  · intro h
    simp [addUser, h]
  · simp [addUser, AList.lookup_insert]
  · intro V hV
    simp [addUser, AList.lookup_insert_ne hV]

theorem addUser_result_witness :
    (addUser serverABC [66] 9).2 = (some 2, true) ∧
      (addUser (NewServer [] []) [66] 9).2 = (none, false) ∧
      (addUser serverABC [66] 9).1.users.lookup [67] = serverABC.users.lookup [67] :=
  ⟨(addUser_result serverABC [66] 9).2.1 2 (by decide),
    (addUser_result (NewServer [] []) [66] 9).2.2.1 (by decide),
    (addUser_result serverABC [66] 9).2.2.2.2.1 [67] (by decide)⟩

/-! ## The connection handler -/

theorem addUser_distinctConns (s : Server) (user : GoString) (conn : Conn)
    (hd : distinctConns s) (hfresh : ∀ u, s.users.lookup u ≠ some conn) :
    distinctConns (addUser s user conn).1 := by
  unfold distinctConns at *
  have hsub : ((List.kerase user s.users.entries).map fun e => e.2).Sublist
      (s.users.entries.map fun e => e.2) := (List.kerase_sublist _ _).map _
  simp only [addUser, AList.insert_entries, List.map_cons, List.nodup_cons]
  refine ⟨fun hmem => ?_, hd.sublist hsub⟩
  obtain ⟨e, he, hc⟩ := List.mem_map.1 (hsub.subset hmem)
  obtain ⟨u, c⟩ := e
  have hc2 : c = conn := hc
  subst hc2
  exact hfresh u (AList.mem_lookup_iff.2 he)

theorem delUser_distinctConns (s : Server) (user : GoString) (hd : distinctConns s) :
    distinctConns (delUser s user) := by
  unfold distinctConns at *
  exact hd.sublist ((List.kerase_sublist _ _).map _)

/-- The handler keeps the connections of the registry pairwise distinct when
the connection it is given is a new one. -/
theorem StartHandler_distinctConns (s : Server) (up : Upgrade) (param : Option GoString)
    (hd : distinctConns s)
    (hfresh : ∀ conn, up = Upgrade.ok conn → ∀ u, s.users.lookup u ≠ some conn) :
    distinctConns (StartHandler s up param).server := by
  cases up with
  | failed c e => cases c <;> exact hd
  | ok conn =>
    unfold StartHandler
    simp only
    split
    · exact hd
    · exact addUser_distinctConns s _ conn hd (hfresh conn rfl)

/-- C8. Missing identity: when the upgrade succeeds and the `user` parameter is
absent or empty, the handler closes the new connection and does nothing
else: the server, so the registry, is exactly as before, no other
connection is closed, no goroutine (read loop) is started. -/
theorem StartHandler_missing_user (s : Server) (conn : Conn) (param : Option GoString)
    (h : param = none ∨ param = some []) :
    (StartHandler s (Upgrade.ok conn) param).server = s ∧
      (StartHandler s (Upgrade.ok conn) param).events = [Event.close conn] ∧
      (StartHandler s (Upgrade.ok conn) param).spawned = none ∧
      (StartHandler s (Upgrade.ok conn) param).panicked = false := by
  rcases h with rfl | rfl <;> simp [StartHandler, queryGet]

theorem StartHandler_missing_user_witness :
    (StartHandler serverABC (Upgrade.ok 7) none).server = serverABC ∧
      (StartHandler serverABC (Upgrade.ok 7) none).events = [Event.close 7] ∧
      (StartHandler serverABC (Upgrade.ok 7) none).spawned = none ∧
      (StartHandler serverABC (Upgrade.ok 7) none).panicked = false :=
  StartHandler_missing_user serverABC 7 none (Or.inl rfl)

/-! ## Teardown -/

theorem StartGoroutineExit_lookup (s : Server) (user : GoString) (conn : Conn)
    (err : Option GoError) : (StartGoroutineExit s user conn err).1.users.lookup user = none := by
  simp [StartGoroutineExit, delUser, AList.lookup_erase]

/-- C4. Defect: connection 1 registers as `"alice"`, connection 2 registers as
`"alice"` (the handler closes connection 1 and the registry maps `"alice"`
to connection 2), the read of connection 1 fails so its `readloop` returns
nil, and its goroutine closes connection 1 again and deletes `"alice"`: the
registry no longer holds connection 2. -/
theorem teardown_deletes_later_connection :
    reloginFirst.server.users.lookup alice = some 1 ∧
      reloginSecond.events = [Event.close 1, Event.log (LogLine.userIn alice)] ∧
      reloginSecond.spawned = some (alice, 2) ∧
      reloginSecond.server.users.lookup alice = some 2 ∧
      (readloop alice [ReadOutcome.err "use of closed network connection"]).ret = some none ∧
      reloginTeardown.2 = [Event.close 1, Event.log (LogLine.connClosed alice)] ∧
      reloginTeardown.1.users.lookup alice = none ∧
      reloginTeardown.1.users.entries = [] := by
  decide

/-! ## Shutdown -/

theorem ShutdownLoop_eq (es : List (Σ _ : GoString, Conn)) :
    ShutdownLoop es = es.map fun e => Event.close e.2 := by
  induction es with
  | nil => rfl
  | cons e rest ih => simp [ShutdownLoop, ih]

theorem closesOf_map_close (es : List (Σ _ : GoString, Conn)) :
    closesOf (es.map fun e => Event.close e.2) = es.map fun e => e.2 := by
  induction es with
  | nil => rfl
  | cons e rest ih => simp [closesOf, ih]

theorem Shutdown_users (s : Server) : (Shutdown s).1.users = s.users := by
  unfold Shutdown; split <;> rfl

theorem ShutdownTimes_fired (n : Nat) (s : Server) (h : s.once = true) :
    ShutdownTimes n s = (s, List.replicate n []) := by
  induction n with
  | zero => rfl
  | succ n ih => simp [ShutdownTimes, Shutdown, h, ih, List.replicate_succ]

theorem flatten_replicate_nil (n : Nat) :
    (List.replicate n ([] : List Event)).flatten = [] := by
  induction n with
  | zero => rfl
  | succ n ih => simp [List.replicate_succ, ih]

/-- C5. Shutdown idempotence: on a server whose `once` has not fired, `n ≥ 1` calls
of `Shutdown` in a row issue, in the first call, one `Close` per registry
entry and nothing else, and in every later call nothing at all; so all the
calls together close the connection of each entry once, exactly once when
no connection is registered under two ids; the registry is left as it
was. -/
theorem Shutdown_idempotent (s : Server) (n : Nat) (h : s.once = false) (hn : 1 ≤ n) :
    (ShutdownTimes n s).2 =
        (s.users.entries.map fun e => Event.close e.2) :: List.replicate (n - 1) [] ∧
      closesOf (ShutdownTimes n s).2.flatten = s.users.entries.map (fun e => e.2) ∧
      (distinctConns s → ∀ u c, s.users.lookup u = some c →
        (closesOf (ShutdownTimes n s).2.flatten).count c = 1) ∧
      (ShutdownTimes n s).1.users = s.users := by
  obtain ⟨m, rfl⟩ : ∃ m, n = m + 1 := ⟨n - 1, by omega⟩
  have hfired : (Shutdown s).1.once = true := by simp [Shutdown, h]
  have hstep : ShutdownTimes (m + 1) s =
      ((ShutdownTimes m (Shutdown s).1).1, (Shutdown s).2 :: (ShutdownTimes m (Shutdown s).1).2) :=
    rfl
  have hfirst : (Shutdown s).2 = s.users.entries.map fun e => Event.close e.2 := by
    simp [Shutdown, h, ShutdownLoop_eq]
  have hev : (ShutdownTimes (m + 1) s).2 =
      (s.users.entries.map fun e => Event.close e.2) :: List.replicate m [] := by
    rw [hstep, ShutdownTimes_fired m _ hfired, hfirst]
  have hcl : closesOf (ShutdownTimes (m + 1) s).2.flatten = s.users.entries.map (fun e => e.2) := by
    rw [hev, List.flatten_cons, flatten_replicate_nil, List.append_nil, closesOf_map_close]
  refine ⟨by simpa using hev, hcl, ?_, ?_⟩
  · intro hd u c hl
    rw [hcl]
    have hmem : c ∈ s.users.entries.map (fun e => e.2) :=
      List.mem_map.2 ⟨⟨u, c⟩, AList.mem_lookup_iff.1 hl, rfl⟩
    exact List.count_eq_one_of_mem hd hmem
  · rw [hstep, ShutdownTimes_fired m _ hfired]
    exact Shutdown_users s

theorem Shutdown_idempotent_witness :
    (ShutdownTimes 3 serverABC).2 =
        [[Event.close 1, Event.close 2, Event.close 3], [], []] ∧
      (closesOf (ShutdownTimes 3 serverABC).2.flatten).count 2 = 1 :=
  ⟨(Shutdown_idempotent serverABC 3 (by decide) (by decide)).1,
    (Shutdown_idempotent serverABC 3 (by decide) (by decide)).2.2.1 (by decide) [66] 2
      (by decide)⟩

/-- C10. Broadcast and shutdown leave the registry as it is: `handle` returns the
server unchanged whatever writes fail, `Shutdown` changes nothing but
`once`, and after `Shutdown` the closed connections are still registered
and `handle` still writes to each of them. -/
theorem handle_Shutdown_keep_registry (wf : WriteFrame) (s : Server) (sender text : GoString) :
    (handle wf s sender text).1 = s ∧
      (Shutdown s).1.users = s.users ∧
      (Shutdown s).1.id = s.id ∧ (Shutdown s).1.address = s.address ∧
      (Shutdown (Shutdown s).1).1.users = s.users ∧
      writesOf (handle wf (Shutdown s).1 sender text).2 =
        (recipients s sender).map
          (fun e => (e.2, NewTextFrame (text ++ fromTag ++ sender))) := by
  have hu : (Shutdown s).1.users = s.users := Shutdown_users s
  have hu2 : (Shutdown (Shutdown s).1).1.users = s.users :=
    (Shutdown_users _).trans (Shutdown_users s)
  refine ⟨rfl, hu, ?_, ?_, hu2, ?_⟩
  · unfold Shutdown; split <;> rfl
  · unfold Shutdown; split <;> rfl
  · rw [handle_writes]
    simp [recipients, hu, broadcastFrame]

/-! ## The read loop -/

/-- C6. Masked round trip: when `readloop` reads a text frame that is masked with
key `K` and whose wire payload is `P` masked with `K`, the text it hands to
`handle` is `P`, for every `P` (the empty one too) and every `K`; when the
text frame is not masked, the text handed over is the wire payload. -/
theorem readloop_masked_roundtrip (user P : GoString) (K : Mask) (fin : Bool) (rsv len : Nat)
    (rest : List ReadOutcome) :
    (readloop user (ReadOutcome.frame
          ⟨⟨fin, rsv, OpText, true, K, len⟩, xorMask P K⟩ :: rest)).dispatched =
        (user, P) :: (readloop user rest).dispatched ∧
      (readloop user (ReadOutcome.frame
          ⟨⟨fin, rsv, OpText, false, K, len⟩, P⟩ :: rest)).dispatched =
        (user, P) :: (readloop user rest).dispatched := by
  constructor
  · simp [readloop, OpText, OpClose, Cipher_eq_xorMask, xorMask_xorMask]
  · simp [readloop, OpText, OpClose]

theorem readloop_ret_find (user : GoString) (reads : List ReadOutcome) :
    (readloop user reads).ret =
      match reads.find? stops with
      | none => none
      | some (ReadOutcome.err _) => some none
      | some (ReadOutcome.frame _) => some (some "remote side close the conn")
      | some (ReadOutcome.panic _) => none := by
  induction reads with
  | nil => rfl
  | cons x rest ih =>
    cases x with
    | err e => simp [readloop, stops]
    | panic m => simp [readloop, stops]
    | frame f =>
      by_cases h : f.Header.OpCode = OpClose
      · simp [readloop, stops, h]
      · rw [List.find?_cons_of_neg _ (by simp [stops, h]), ← ih]
        simp only [readloop, h, if_false]
        split <;> rfl

theorem readloop_panicked_find (user : GoString) (reads : List ReadOutcome) :
    (readloop user reads).panicked =
      match reads.find? stops with
      | some (ReadOutcome.panic _) => true
      | _ => false := by
  induction reads with
  | nil => rfl
  | cons x rest ih =>
    cases x with
    | err e => simp [readloop, stops]
    | panic m => simp [readloop, stops]
    | frame f =>
      by_cases h : f.Header.OpCode = OpClose
      · simp [readloop, stops, h]
      · rw [List.find?_cons_of_neg _ (by simp [stops, h]), ← ih]
        simp only [readloop, h, if_false]
        split <;> rfl

theorem readloop_rest (user : GoString) (reads : List ReadOutcome) :
    (readloop user reads).rest = (reads.dropWhile fun x => !stops x).drop 1 := by
  induction reads with
  | nil => rfl
  | cons x rest ih =>
    cases x with
    | err e => simp [readloop, stops, List.dropWhile_cons]
    | panic m => simp [readloop, stops, List.dropWhile_cons]
    | frame f =>
      by_cases h : f.Header.OpCode = OpClose
      · simp [readloop, stops, h, List.dropWhile_cons]
      · have hd : (ReadOutcome.frame f :: rest).dropWhile (fun x => !stops x) =
            rest.dropWhile (fun x => !stops x) := by
          simp [List.dropWhile_cons, stops, h]
        rw [hd, ← ih]
        simp only [readloop, h, if_false]
        split <;> rfl

theorem stops_of_not_isPanic (x : ReadOutcome) (h : isPanic x = false) :
    stops x = failedOrClose x := by
  cases x with
  | err e => rfl
  | frame f => rfl
  | panic m => cases h

theorem find_stops_of_no_panic (reads : List ReadOutcome)
    (h : ∀ x ∈ reads, isPanic x = false) :
    reads.find? stops = reads.find? failedOrClose := by
  induction reads with
  | nil => rfl
  | cons x rest ih =>
    have hx := stops_of_not_isPanic x (h x (List.mem_cons_self _ _))
    have hrest := ih (fun y hy => h y (List.mem_cons_of_mem _ hy))
    rw [List.find?_cons, List.find?_cons, hx, hrest]

theorem dropWhile_stops_of_no_panic (reads : List ReadOutcome)
    (h : ∀ x ∈ reads, isPanic x = false) :
    reads.dropWhile (fun x => !stops x) = reads.dropWhile (fun x => !failedOrClose x) := by
  induction reads with
  | nil => rfl
  | cons x rest ih =>
    have hx := stops_of_not_isPanic x (h x (List.mem_cons_self _ _))
    have hrest := ih (fun y hy => h y (List.mem_cons_of_mem _ hy))
    rw [List.dropWhile_cons, List.dropWhile_cons, hx, hrest]

/-- C7, as stated, fails. On `readsWithPanic` the first `ws.ReadFrame` panics:
`readloop` stops there, with two outcomes left unread and nothing
dispatched, though no outcome it has read is a failed read or a close
frame, and it returns neither nil nor the error. -/
theorem readloop_stops_on_panic :
    (readloop alice readsWithPanic).panicked = true ∧
      (readloop alice readsWithPanic).ret = none ∧
      (readloop alice readsWithPanic).dispatched = [] ∧
      (readloop alice readsWithPanic).rest = readsWithPanic.drop 1 ∧
      (readsWithPanic.take 1).all (fun x => !failedOrClose x) = true ∧
      ¬ ((readloop alice readsWithPanic).rest ≠ [] →
          ∃ x ∈ readsWithPanic.take 1, failedOrClose x = true) := by
  decide

/-- C7, amended. On any finite sequence of outcomes of `ws.ReadFrame`, each a
returned error, a returned frame or a panic, `readloop` returns nil exactly
when the first outcome that is a failed read, a close frame or a panic is a
failed read, returns the error `"remote side close the conn"` exactly when
it is a close frame, is left by the panic without returning exactly when it
is a panic, and is still waiting exactly when there is no such outcome; it
returns nothing else, and it reads up to that first outcome and no further.
On a sequence without a panic that first outcome is the first failed read
or close frame. -/
theorem readloop_return (user : GoString) (reads : List ReadOutcome) :
    ((readloop user reads).ret = some none ↔
        ∃ e, reads.find? stops = some (ReadOutcome.err e)) ∧
      ((readloop user reads).ret = some (some "remote side close the conn") ↔
        ∃ f, reads.find? stops = some (ReadOutcome.frame f) ∧ f.Header.OpCode = OpClose) ∧
      (((readloop user reads).panicked = true ∧ (readloop user reads).ret = none) ↔
        ∃ m, reads.find? stops = some (ReadOutcome.panic m)) ∧
      (((readloop user reads).panicked = false ∧ (readloop user reads).ret = none) ↔
        reads.find? stops = none) ∧
      ((readloop user reads).ret = none ∨ (readloop user reads).ret = some none ∨
        (readloop user reads).ret = some (some "remote side close the conn")) ∧
      (readloop user reads).rest = (reads.dropWhile fun x => !stops x).drop 1 ∧
      ((∀ x ∈ reads, isPanic x = false) →
        reads.find? stops = reads.find? failedOrClose ∧
          (readloop user reads).panicked = false ∧
          (readloop user reads).rest = (reads.dropWhile fun x => !failedOrClose x).drop 1) := by
  have hret := readloop_ret_find user reads
  have hpan := readloop_panicked_find user reads
  refine ⟨?_, ?_, ?_, ?_, ?_, readloop_rest user reads, ?_⟩
  · rw [hret]
    cases hf : reads.find? stops with
    | none => simp
    | some x => cases x <;> simp
  · rw [hret]
    cases hf : reads.find? stops with
    | none => simp
    | some x =>
      cases x with
      | err e => simp
      | panic m => simp
      | frame f =>
        have hs : stops (ReadOutcome.frame f) = true := List.find?_some hf
        have hc : f.Header.OpCode = OpClose := by simpa [stops] using hs
        simp [hc]
  · rw [hret, hpan]
    cases hf : reads.find? stops with
    | none => simp
    | some x => cases x <;> simp
  · rw [hret, hpan]
    cases hf : reads.find? stops with
    | none => simp
    | some x => cases x <;> simp
  · rw [hret]
    cases hf : reads.find? stops with
    | none => simp
    | some x => cases x <;> simp
  · intro hno
    have hfind := find_stops_of_no_panic reads hno
    refine ⟨hfind, ?_, ?_⟩
    · rw [hpan]
      cases hf : reads.find? stops with
      | none => rfl
      | some x =>
        cases x with
        | err e => rfl
        | frame f => rfl
        | panic m => exact absurd (hno _ (List.mem_of_find?_eq_some hf)) (by simp [isPanic])
    · rw [readloop_rest, dropWhile_stops_of_no_panic reads hno]

theorem readloop_return_witness :
    (readloop alice [ReadOutcome.frame frameHello, ReadOutcome.err "EOF",
          ReadOutcome.frame frameHello]).ret = some none ∧
      (readloop alice [ReadOutcome.frame frameHello, ReadOutcome.err "EOF",
          ReadOutcome.frame frameHello]).panicked = false ∧
      (readloop alice [ReadOutcome.frame frameHello, ReadOutcome.err "EOF",
          ReadOutcome.frame frameHello]).rest = [ReadOutcome.frame frameHello] :=
  ⟨(readloop_return alice [ReadOutcome.frame frameHello, ReadOutcome.err "EOF",
        ReadOutcome.frame frameHello]).1.2 ⟨"EOF", by decide⟩,
    ((readloop_return alice [ReadOutcome.frame frameHello, ReadOutcome.err "EOF",
        ReadOutcome.frame frameHello]).2.2.2.2.2.2 (by decide)).2.1,
    (((readloop_return alice [ReadOutcome.frame frameHello, ReadOutcome.err "EOF",
        ReadOutcome.frame frameHello]).2.2.2.2.2.2 (by decide)).2.2).trans (by decide)⟩

theorem readloop_payload (f : Frame) :
    (if f.Header.Masked then Cipher f.Payload f.Header.Mask 0 else f.Payload) = f.text := by
  unfold Frame.text
  split
  · exact Cipher_eq_xorMask _ _
  · rfl

theorem readloop_frames (user : GoString) (frames : List Frame) (e : GoError) :
    (readloop user (frames.map ReadOutcome.frame ++ [ReadOutcome.err e])).dispatched =
      ((frames.takeWhile fun f => decide (f.Header.OpCode ≠ OpClose)).filter
        fun f => decide (f.Header.OpCode = OpText)).map fun f => (user, f.text) := by
  induction frames with
  | nil => rfl
  | cons f rest ih =>
    rw [List.map_cons, List.cons_append, readloop]
    by_cases hc : f.Header.OpCode = OpClose
    · simp [hc, List.takeWhile_cons]
    · by_cases ht : f.Header.OpCode = OpText
      · have hne : OpText ≠ OpClose := by decide
        simp [hne, ht, List.takeWhile_cons, List.filter_cons, readloop_payload, ih]
      · simp [hc, ht, List.takeWhile_cons, List.filter_cons, ih]

theorem readloop_after_close (user : GoString) (before : List ReadOutcome) (f : Frame)
    (after : List ReadOutcome) (hc : f.Header.OpCode = OpClose) :
    (readloop user (before ++ ReadOutcome.frame f :: after)).dispatched =
      (readloop user (before ++ [ReadOutcome.frame f])).dispatched := by
  induction before with
  | nil => simp [readloop, hc]
  | cons x rest ih =>
    cases x with
    | err e => simp [readloop]
    | panic m => simp [readloop]
    | frame g =>
      rw [List.cons_append, List.cons_append, readloop, readloop]
      by_cases hg : g.Header.OpCode = OpClose
      · simp [hg]
      · by_cases ht : g.Header.OpCode = OpText
        · have hne : OpText ≠ OpClose := by decide
          simp [hne, ht, ih]
        · simp [hg, ht, ih]

/-- C9. Read-loop dispatch sequence: on any finite sequence of frames followed by a
failed read, the calls of `handle` that `readloop user` starts are, in
order, one per text frame before the first close frame, each with `user`
and the unmasked payload of the frame; a binary, ping, pong or continuation
frame starts none, and what follows a close frame changes nothing. -/
theorem readloop_dispatch (user : GoString) (frames : List Frame) (e : GoError) :
    (readloop user (frames.map ReadOutcome.frame ++ [ReadOutcome.err e])).dispatched =
        ((frames.takeWhile fun f => decide (f.Header.OpCode ≠ OpClose)).filter
          fun f => decide (f.Header.OpCode = OpText)).map (fun f => (user, f.text)) ∧
      (∀ f rest, f.Header.OpCode ∈ [OpBinary, OpPing, OpPong, OpContinuation] →
        (readloop user (ReadOutcome.frame f :: rest)).dispatched =
          (readloop user rest).dispatched) ∧
      (∀ before f after, f.Header.OpCode = OpClose →
        (readloop user (before ++ ReadOutcome.frame f :: after)).dispatched =
          (readloop user (before ++ [ReadOutcome.frame f])).dispatched) := by
  refine ⟨readloop_frames user frames e, ?_, fun before f after hc =>
    readloop_after_close user before f after hc⟩
  intro f rest hf
  have hne : f.Header.OpCode ≠ OpClose ∧ f.Header.OpCode ≠ OpText := by
    simp only [List.mem_cons, List.mem_singleton, List.not_mem_nil, or_false] at hf
    rcases hf with h | h | h | h <;> rw [h] <;> decide
  simp [readloop, hne.1, hne.2]

theorem readloop_dispatch_witness :
    (readloop alice ([frameHello, frameOf OpPing, frameOf OpText, frameOf OpClose,
          frameOf OpText].map ReadOutcome.frame ++ [ReadOutcome.err "EOF"])).dispatched =
        [(alice, [104, 101, 108, 108, 111]), (alice, [1, 2])] ∧
      (readloop alice (ReadOutcome.frame (frameOf OpBinary) ::
          [ReadOutcome.frame frameHello])).dispatched =
        (readloop alice [ReadOutcome.frame frameHello]).dispatched ∧
      (readloop alice ([ReadOutcome.frame frameHello] ++
          ReadOutcome.frame (frameOf OpClose) :: [ReadOutcome.frame frameHello])).dispatched =
        (readloop alice ([ReadOutcome.frame frameHello] ++
          [ReadOutcome.frame (frameOf OpClose)])).dispatched :=
  ⟨(readloop_dispatch alice [frameHello, frameOf OpPing, frameOf OpText, frameOf OpClose,
      frameOf OpText] "EOF").1.trans (by decide),
    (readloop_dispatch alice [] "EOF").2.1 (frameOf OpBinary) [ReadOutcome.frame frameHello]
      (by decide),
    (readloop_dispatch alice [] "EOF").2.2 [ReadOutcome.frame frameHello] (frameOf OpClose)
      [ReadOutcome.frame frameHello] rfl⟩

end Coolchat
